import Mathlib

/-!
# Verification of the NOVA RAG chat frontend against its specification

Shallow embedding of the session bookkeeping, upload validation, and
streaming-relay logic of the NOVA repository (a Next.js RAG chat app),
together with theorems settling the frozen claims about it.

Conventions:
* JavaScript strings become `String`, numbers become `Nat` where the code
  only ever sees non-negative integers (timestamps, sizes, second counts).
* `JSON.parse` is an external library call; readers that invoke it are
  parameterised over an arbitrary parse oracle `parse : String → Option _`,
  so every theorem quantifies over all possible parser behaviours.
* React `setState` effects are modelled by explicit state records; toast
  calls and HTTP requests are modelled as fields of effect records.
-/

/-! ## C10: `formatTimeAgo` (Sidebar, part_000 lines 27-38)

The source computes `diffInSeconds = floor((now - messageTime)/1000)` and
then walks an if-chain of thresholds.  We embed the function over the
already-computed non-negative second count (the claim restricts to
timestamps not in the future), with `Nat` division as `Math.floor` of a
non-negative quotient. -/

/-- Embeds `formatTimeAgo` from the sidebar component: the if-chain over
`diffInSeconds` exactly as in the source. -/
def formatTimeAgo (diffInSeconds : Nat) : String :=
  if diffInSeconds < 60 then "Just now"
  else if diffInSeconds < 3600 then toString (diffInSeconds / 60) ++ " minutes ago"
  else if diffInSeconds < 86400 then toString (diffInSeconds / 3600) ++ " hours ago"
  else if diffInSeconds < 2592000 then toString (diffInSeconds / 86400) ++ " days ago"
  else if diffInSeconds < 31536000 then toString (diffInSeconds / 2592000) ++ " months ago"
  else toString (diffInSeconds / 31536000) ++ " years ago"

/-- The claim-side table of (upper threshold, unit, suffix) rows for the four
middle forms: minutes below 3600, hours below 86400, days below 2592000,
months below 31536000. -/
def timeUnitTable : List (Nat × Nat × String) :=
  [(3600, 60, " minutes ago"),
   (86400, 3600, " hours ago"),
   (2592000, 86400, " days ago"),
   (31536000, 2592000, " months ago")]

/-- Claim-side rendering, following the words of the claim: the output is
selected by the first matching threshold on the elapsed seconds — `Just now`
below 60, otherwise the first row of `timeUnitTable` whose threshold exceeds
the elapsed time (years when none does) — and the displayed count is the
floor of the elapsed time divided by the corresponding unit. -/
def formatTimeAgoClaim (d : Nat) : String :=
  if d < 60 then "Just now"
  else
    match timeUnitTable.find? (fun row => d < row.1) with
    | some row => toString (d / row.2.1) ++ row.2.2
    | none => toString (d / 31536000) ++ " years ago"

/-! ## C6: session feature types and the classifying maps
(`ChatSession.feature_type` in useChatSessions/part_004, `getTypeIcon`,
`getTypeColor`, `getFeatureRoute` in Sidebar/part_000 lines 103-152).

The TypeScript union `'pdf' | 'csv' | 'web' | 'multi_source' | 'agent_chat'`
becomes an inductive with exactly those five constructors; the three switch
statements become total functions on it.  (Each source switch also carries a
`default` arm, unreachable for values of the union type.)  Icons are
identified by their lucide component names. -/

/-- The `feature_type` union of `ChatSession` (useChatSessions hook). -/
inductive FeatureType where
  | pdf
  | csv
  | web
  | multi_source
  | agent_chat
deriving DecidableEq

/-- All values of the `feature_type` union, in declaration order. -/
def allFeatureTypes : List FeatureType :=
  [.pdf, .csv, .web, .multi_source, .agent_chat]

/-- Embeds `getTypeIcon` (Sidebar): lucide icon component per feature type. -/
def getTypeIcon : FeatureType → String
  | .pdf => "FileText"
  | .csv => "BarChart3"
  | .web => "Globe"
  | .multi_source => "Database"
  | .agent_chat => "Users"

/-- Embeds `getTypeColor` (Sidebar): tailwind colour class per feature type. -/
def getTypeColor : FeatureType → String
  | .pdf => "text-blue-400"
  | .csv => "text-violet-400"
  | .web => "text-blue-400"
  | .multi_source => "text-green-400"
  | .agent_chat => "text-purple-400"

/-- Embeds `getFeatureRoute` (Sidebar): dashboard route segment per feature
type. -/
def getFeatureRoute : FeatureType → String
  | .pdf => "pdf-chat"
  | .csv => "csv-chat"
  | .web => "web-chat"
  | .multi_source => "multiple-sources-chat"
  | .agent_chat => "agents"

/-- C10: For every timestamp not in the future, `formatTimeAgo` returns
exactly one of six forms selected by the first matching threshold on the
elapsed seconds — `Just now` below 60, minutes below 3600, hours below
86400, days below 2592000, months below 31536000, and years otherwise —
with the displayed count equal to the floor of the elapsed time divided by
the corresponding unit. -/
theorem c10_format_time_ago (d : Nat) : formatTimeAgo d = formatTimeAgoClaim d := by
  unfold formatTimeAgo formatTimeAgoClaim timeUnitTable
  by_cases h60 : d < 60
  · simp [h60]
  · by_cases h1 : d < 3600
    · simp [h60, h1, List.find?]
    · by_cases h2 : d < 86400
      · simp [h60, h1, h2, List.find?]
      · by_cases h3 : d < 2592000
        · simp [h60, h1, h2, h3, List.find?]
        · by_cases h4 : d < 31536000
          · simp [h60, h1, h2, h3, h4, List.find?]
          · simp [h60, h1, h2, h3, h4, List.find?]

/-- C6: every chat session's feature type is drawn from exactly five values
(pdf, csv, web, multi-source, agent chat — five distinct constructors), and
each classifying operation (icon, colour, route) is total over exactly these
five, yielding the concrete classification table of the source. -/
theorem c6_feature_type_totality :
    (∀ t : FeatureType, t ∈ allFeatureTypes) ∧
    allFeatureTypes.Nodup ∧ allFeatureTypes.length = 5 ∧
    allFeatureTypes.map getTypeIcon =
      ["FileText", "BarChart3", "Globe", "Database", "Users"] ∧
    allFeatureTypes.map getTypeColor =
      ["text-blue-400", "text-violet-400", "text-blue-400", "text-green-400",
       "text-purple-400"] ∧
    allFeatureTypes.map getFeatureRoute =
      ["pdf-chat", "csv-chat", "web-chat", "multiple-sources-chat", "agents"] := by
  refine ⟨fun t => ?_, ?_, rfl, rfl, rfl, rfl⟩
  · cases t <;> simp [allFeatureTypes]
  · simp [allFeatureTypes]

/-! ## C2: session-fetching helpers (actions/chatSessions.ts)

Each helper issues exactly one `fetch` (straight-line code, no loop) and
inspects `response.ok`.  We embed a helper as a function of the single HTTP
response it receives; the `requests` field of the outcome records how many
requests the call issued (always 1, from the single `fetch` in the body).
A JS `async` function either resolves with a value or rejects with a thrown
error; `FetchOutcome` distinguishes the two. -/

/-- The observable part of a `fetch` response: `ok`, `status`, and the
decoded JSON body (abstracted to a `String`). -/
structure HttpResponse where
  ok : Bool
  status : Nat
  body : String
deriving DecidableEq

/-- How an async helper settles: rejection with a thrown error message, or
resolution with a value. -/
inductive FetchOutcome (α : Type) where
  | thrown (msg : String)
  | value (v : α)
deriving DecidableEq

/-- `true` exactly when the outcome is a rejection. -/
def FetchOutcome.isThrown : FetchOutcome α → Bool
  | .thrown _ => true
  | .value _ => false

/-- The `Error` message built for a non-OK response in
actions/chatSessions.ts. -/
def httpErrorMsg (status : Nat) : String :=
  "HTTP error! status: " ++ toString status

/-- Embeds `fetchChatSessions`: one request; on non-OK it throws
`HTTP error! status: {status}` (the catch block logs and rethrows), on OK it
resolves with the JSON body. -/
def fetchChatSessions (r : HttpResponse) : FetchOutcome String × Nat :=
  if !r.ok then (.thrown (httpErrorMsg r.status), 1)
  else (.value r.body, 1)

/-- Embeds `fetchMultiSourceChatSessions` (same shape as
`fetchChatSessions`, different URL). -/
def fetchMultiSourceChatSessions (r : HttpResponse) : FetchOutcome String × Nat :=
  if !r.ok then (.thrown (httpErrorMsg r.status), 1)
  else (.value r.body, 1)

/-- Embeds `fetchFirstMessage` (same error shape, message-list URL). -/
def fetchFirstMessage (r : HttpResponse) : FetchOutcome String × Nat :=
  if !r.ok then (.thrown (httpErrorMsg r.status), 1)
  else (.value r.body, 1)

/-- Embeds `fetchMultiSourceFirstMessage` (same error shape). -/
def fetchMultiSourceFirstMessage (r : HttpResponse) : FetchOutcome String × Nat :=
  if !r.ok then (.thrown (httpErrorMsg r.status), 1)
  else (.value r.body, 1)

/-- Resolution value of the agent helpers: `{ success, data?, error? }`. -/
structure AgentFetchResult where
  success : Bool
  data : Option String
  error : Option String
deriving DecidableEq

/-- Embeds `fetchAgentChatSessions`: one request; on non-OK the thrown
`HTTP error! status: {status}` is caught and the helper RESOLVES with
`{ success := false, error }`; on OK it resolves with
`{ success := true, data }`.  It never rejects. -/
def fetchAgentChatSessions (r : HttpResponse) : FetchOutcome AgentFetchResult × Nat :=
  if !r.ok then (.value ⟨false, none, some (httpErrorMsg r.status)⟩, 1)
  else (.value ⟨true, some r.body, none⟩, 1)

/-- Embeds `fetchAgentFirstMessage` (same catch-and-resolve shape as
`fetchAgentChatSessions`). -/
def fetchAgentFirstMessage (r : HttpResponse) : FetchOutcome AgentFetchResult × Nat :=
  if !r.ok then (.value ⟨false, none, some (httpErrorMsg r.status)⟩, 1)
  else (.value ⟨true, some r.body, none⟩, 1)

/-- C2 counterexample: on the same non-OK response (status 500),
`fetchChatSessions` rejects (throws to its caller) while
`fetchAgentChatSessions` resolves with `success := false` — the two
session-fetching helpers do NOT signal the failure to their callers the
same way, refuting the claim at this concrete input. -/
theorem c2_counterexample :
    (fetchChatSessions ⟨false, 500, ""⟩).1.isThrown = true ∧
    (fetchAgentChatSessions ⟨false, 500, ""⟩).1.isThrown = false := by
  constructor <;> rfl

/-- C2 (amended): for every non-OK HTTP response, each session-fetching
helper in actions/chatSessions.ts surfaces the failure carrying the HTTP
status code after exactly one request (no retry); the chat/multi-source
helpers rethrow an error whose message carries the status, while the agent
helpers catch it and resolve with `success := false` and the same
status-carrying message — so not every helper signals the failure the same
way. -/
theorem c2_error_surfacing_amended (r : HttpResponse) (h : r.ok = false) :
    fetchChatSessions r = (.thrown (httpErrorMsg r.status), 1) ∧
    fetchMultiSourceChatSessions r = (.thrown (httpErrorMsg r.status), 1) ∧
    fetchFirstMessage r = (.thrown (httpErrorMsg r.status), 1) ∧
    fetchMultiSourceFirstMessage r = (.thrown (httpErrorMsg r.status), 1) ∧
    fetchAgentChatSessions r =
      (.value ⟨false, none, some (httpErrorMsg r.status)⟩, 1) ∧
    fetchAgentFirstMessage r =
      (.value ⟨false, none, some (httpErrorMsg r.status)⟩, 1) := by
  simp [fetchChatSessions, fetchMultiSourceChatSessions, fetchFirstMessage,
    fetchMultiSourceFirstMessage, fetchAgentChatSessions,
    fetchAgentFirstMessage, h]

/-- C2 witness: the amended theorem applied to the concrete non-OK response
with status 404. -/
theorem c2_witness :
    fetchChatSessions ⟨false, 404, ""⟩ =
      (.thrown (httpErrorMsg 404), 1) ∧
    fetchAgentChatSessions ⟨false, 404, ""⟩ =
      (.value ⟨false, none, some (httpErrorMsg 404)⟩, 1) := by
  have h := c2_error_surfacing_amended ⟨false, 404, ""⟩ rfl
  exact ⟨h.1, h.2.2.2.2.1⟩

/-! ## C3: upload validation (PdfUploader in part_000, CSVuploader.tsx)

`handleFile` (PDF) and `handleFileUpload` (CSV) are embedded as functions
from the signed-in flag and the file's observable attributes (MIME type,
name, size) to an effect record: how many upload requests and session-create
requests were issued, and which error toast (if any) was shown.  Control
flow is translated branch by branch; the valid path issues the single upload
request of `uploadFileToBackend` / the axios post (session creation happens
elsewhere, so neither handler ever issues a session-create request). -/

/-- JS `String.prototype.toLowerCase`, modelled code-point-wise over the
string's characters (the file names involved are plain ASCII). -/
def jsToLower (s : String) : String := ⟨s.data.map Char.toLower⟩

/-- JS `String.prototype.endsWith`, modelled as list suffix over the
string's characters. -/
def strEndsWith (s suffix : String) : Bool := suffix.data.isSuffixOf s.data

/-- Observable attributes of a browser `File`. -/
structure BrowserFile where
  name : String
  mimeType : String
  size : Nat
deriving DecidableEq

/-- Effects of one invocation of an upload handler. -/
structure UploadOutcome where
  uploadRequests : Nat
  sessionRequests : Nat
  errorToast : Option String
deriving DecidableEq

/-- Embeds `validateFile` (PdfUploader): PDF MIME check then 50MB limit. -/
def validateFile (f : BrowserFile) : Option String :=
  if f.mimeType ≠ "application/pdf" then some "Please upload a PDF file only"
  else if f.size > 50 * 1024 * 1024 then some "File size must be less than 50MB"
  else none

/-- Embeds `handleFile` (PdfUploader): signed-in gate, then `validateFile`;
on a validation error it toasts and returns before any request; otherwise it
proceeds to `simulateProgressAndUpload`, which issues the one upload
request. -/
def handleFile (isSignedIn : Bool) (f : BrowserFile) : UploadOutcome :=
  if !isSignedIn then
    { uploadRequests := 0, sessionRequests := 0,
      errorToast := some "Authentication required" }
  else
    match validateFile f with
    | some msg =>
        { uploadRequests := 0, sessionRequests := 0, errorToast := some msg }
    | none =>
        { uploadRequests := 1, sessionRequests := 0, errorToast := none }

/-- Embeds `handleFileUpload` (CSVuploader): signed-in gate, then the
lowercased `.csv` suffix check, then the 100MB limit; otherwise the axios
upload request is issued. -/
def handleFileUpload (isSignedIn : Bool) (f : BrowserFile) : UploadOutcome :=
  if !isSignedIn then
    { uploadRequests := 0, sessionRequests := 0,
      errorToast := some "Please sign in to upload files" }
  else if !(strEndsWith (jsToLower f.name) ".csv") then
    { uploadRequests := 0, sessionRequests := 0,
      errorToast := some "Please upload a CSV file" }
  else if f.size > 100 * 1024 * 1024 then
    { uploadRequests := 0, sessionRequests := 0,
      errorToast := some "File size must be under 100MB" }
  else
    { uploadRequests := 1, sessionRequests := 0, errorToast := none }

/-- C3 counterexample: the file named `data.CSV` (10 bytes) has a name that
does not end in `.csv`, so the claim requires the CSV handler to reject it
before any upload request; the handler instead lowercases the name, accepts
the file, issues the upload request, and shows no error — refuting the
claim at this concrete input. -/
theorem c3_counterexample :
    (strEndsWith "data.CSV" ".csv" = false) ∧
    handleFileUpload true ⟨"data.CSV", "text/csv", 10⟩ =
      { uploadRequests := 1, sessionRequests := 0, errorToast := none } := by
  constructor <;> decide

/-- C3 (amended): for every signed-in upload of a file whose type is invalid
(PDF uploader: MIME type not `application/pdf`; CSV uploader: LOWERCASED
name not ending in `.csv`) or whose size exceeds the uploader's limit (50MB
for PDF, 100MB for CSV), the handler rejects the file before issuing any
upload request, reports an error toast, and creates no session. -/
theorem c3_invalid_file_rejection_amended (pdfFile csvFile : BrowserFile)
    (hpdf : pdfFile.mimeType ≠ "application/pdf" ∨ pdfFile.size > 50 * 1024 * 1024)
    (hcsv : strEndsWith (jsToLower csvFile.name) ".csv" = false ∨
      csvFile.size > 100 * 1024 * 1024) :
    ((handleFile true pdfFile).uploadRequests = 0 ∧
     (handleFile true pdfFile).sessionRequests = 0 ∧
     (handleFile true pdfFile).errorToast.isSome = true) ∧
    ((handleFileUpload true csvFile).uploadRequests = 0 ∧
     (handleFileUpload true csvFile).sessionRequests = 0 ∧
     (handleFileUpload true csvFile).errorToast.isSome = true) := by
  constructor
  · rcases hpdf with h | h
    · simp [handleFile, validateFile, h]
    · by_cases hm : pdfFile.mimeType = "application/pdf"
      · simp [handleFile, validateFile, hm, h]
      · simp [handleFile, validateFile, hm]
  · rcases hcsv with h | h
    · simp [handleFileUpload, h]
    · by_cases hn : strEndsWith (jsToLower csvFile.name) ".csv"
      · simp [handleFileUpload, hn, h]
      · simp [handleFileUpload, hn]

/-- C3 witness: the amended theorem applied to a 60MB PDF (over the 50MB
limit) and a `.txt` file offered to the CSV uploader. -/
theorem c3_witness :
    ((handleFile true ⟨"big.pdf", "application/pdf", 60 * 1024 * 1024⟩).uploadRequests = 0 ∧
     (handleFile true ⟨"big.pdf", "application/pdf", 60 * 1024 * 1024⟩).sessionRequests = 0 ∧
     (handleFile true ⟨"big.pdf", "application/pdf", 60 * 1024 * 1024⟩).errorToast.isSome = true) ∧
    ((handleFileUpload true ⟨"notes.txt", "text/plain", 5⟩).uploadRequests = 0 ∧
     (handleFileUpload true ⟨"notes.txt", "text/plain", 5⟩).sessionRequests = 0 ∧
     (handleFileUpload true ⟨"notes.txt", "text/plain", 5⟩).errorToast.isSome = true) :=
  c3_invalid_file_rejection_amended
    ⟨"big.pdf", "application/pdf", 60 * 1024 * 1024⟩ ⟨"notes.txt", "text/plain", 5⟩
    (Or.inr (by decide)) (Or.inl (by decide))

/-! ## C4: loading persisted messages (part_001 `loadMessages`, lines
502-548)

The mapping from an API message row to a UI message is embedded directly:
`type` is `"user"` when `role === "user"` and `"ai_agent"` otherwise;
`sources` is `JSON.parse(msg.sources)` when `msg.sources` is truthy (a
non-empty string) and `undefined` otherwise.  `JSON.parse` is abstracted as
a parse oracle `String → Option σ` over an arbitrary citation type. -/

/-- An `ApiMessage` row as returned by the messages endpoint. -/
structure ApiMessage where
  id : String
  role : String
  message : String
  sources : Option String
deriving DecidableEq

/-- A rendered chat `Message` of the PDF chat component, with citations of
an abstract decoded type `σ`. -/
structure UiMessage (σ : Type) where
  id : String
  type : String
  content : String
  sources : Option σ

/-- Embeds the per-row mapping of `loadMessages`:
`type: msg.role === "user" ? "user" : "ai_agent"`,
`content: msg.message`,
`sources: msg.sources ? JSON.parse(msg.sources) : undefined` (an empty
string is falsy in JS, so it yields no citations). -/
def mapLoadedMessage (parse : String → Option σ) (m : ApiMessage) : UiMessage σ :=
  { id := m.id
    type := if m.role = "user" then "user" else "ai_agent"
    content := m.message
    sources :=
      match m.sources with
      | some s => if s.isEmpty then none else parse s
      | none => none }

/-- Embeds `loadMessages`: the endpoint's rows are mapped elementwise. -/
def loadMessages (parse : String → Option σ) (rows : List ApiMessage) :
    List (UiMessage σ) :=
  rows.map (mapLoadedMessage parse)

/-- C4: a persisted message is rendered as a user message iff its role is
exactly `"user"` (anything else renders as the assistant), and whenever the
rendered message carries citations they are the JSON-decoding of the row's
non-empty `sources` string (and a row without a `sources` string yields no
citations). -/
theorem c4_message_mapping (parse : String → Option σ) (m : ApiMessage) :
    ((mapLoadedMessage parse m).type = "user" ↔ m.role = "user") ∧
    ((mapLoadedMessage parse m).type ≠ "user" ↔
      (mapLoadedMessage parse m).type = "ai_agent" ∧ m.role ≠ "user") ∧
    (∀ s, m.sources = some s → ¬ s.isEmpty →
      (mapLoadedMessage parse m).sources = parse s) ∧
    (m.sources = none → (mapLoadedMessage parse m).sources = none) := by
  refine ⟨?_, ?_, ?_, ?_⟩
  · constructor
    · intro h
      by_contra hr
      simp [mapLoadedMessage, hr] at h
    · intro h
      simp [mapLoadedMessage, h]
  · by_cases hr : m.role = "user" <;> simp [mapLoadedMessage, hr]
  · intro s hs hne
    simp [mapLoadedMessage, hs, hne]
  · intro hs
    simp [mapLoadedMessage, hs]

/-- C4 witness: the mapping theorem applied to a concrete assistant row
carrying a citation string and to a concrete user row without one. -/
theorem c4_witness :
    ((mapLoadedMessage (fun s => some s) ⟨"m1", "assistant", "hi", some "[1]"⟩).type = "user" ↔
      ("assistant" : String) = "user") ∧
    (mapLoadedMessage (fun s => some s) ⟨"m1", "assistant", "hi", some "[1]"⟩).sources =
      some "[1]" ∧
    (mapLoadedMessage (fun s => some s) ⟨"m2", "user", "yo", none⟩).sources = none := by
  refine ⟨(c4_message_mapping (fun s => some s) ⟨"m1", "assistant", "hi", some "[1]"⟩).1,
    (c4_message_mapping (fun s => some s) ⟨"m1", "assistant", "hi", some "[1]"⟩).2.2.1
      "[1]" rfl (by decide),
    (c4_message_mapping (fun s => some s) ⟨"m2", "user", "yo", none⟩).2.2.2 rfl⟩

/-! ## C5: cancellation of an in-flight agent chat request
(AgentChatSection.tsx `sendMessage` lines 288-311 and 396-414,
`stopGeneration` lines 453-459)

`sendMessage` creates an `AbortController` and attaches its signal to the
one `fetch`; `stopGeneration` calls `abort()` on that controller (plus
`setIsLoading(false)` and an INFO toast).  The catch block distinguishes
`error.name === "AbortError"`: in that case it only logs — no toast, no
message update; otherwise it toasts an error and rewrites the placeholder.
We embed the agent message list, the catch handler, and the effects of
`stopGeneration`. -/

/-- A message of the agent chat component (the fields the catch handler
touches). -/
structure AgentMessage where
  id : String
  type : String
  content : String
  isStreaming : Bool
deriving DecidableEq

/-- Toasts and abort effects of one `stopGeneration` call. -/
structure StopEffects where
  abortSignalTriggered : Bool
  isLoading : Option Bool
  infoToast : Option String
  errorToast : Option String
deriving DecidableEq

/-- Embeds `stopGeneration`: when a controller is attached it triggers the
fetch abort signal via `abortControllerRef.current.abort()`, clears the
loading flag and shows the info toast `Generation stopped`; with no
controller it does nothing.  No other cancellation mechanism exists in the
component. -/
def stopGeneration (hasController : Bool) : StopEffects :=
  if hasController then
    { abortSignalTriggered := true, isLoading := some false,
      infoToast := some "Generation stopped", errorToast := none }
  else
    { abortSignalTriggered := false, isLoading := none,
      infoToast := none, errorToast := none }

/-- Result of the `sendMessage` catch block: the error toast (if any) and
the resulting message list. -/
structure AgentCatchResult where
  errorToast : Option String
  messages : List AgentMessage
deriving DecidableEq

/-- Embeds the catch block of `sendMessage` (AgentChatSection): on
`AbortError` it only logs; on any other error it toasts
`Failed to send message. Please try again.` and replaces the placeholder's
content with the fixed apology, clearing its streaming flag. -/
def agentCatchHandler (errName : String) (aiMessageId : String)
    (msgs : List AgentMessage) : AgentCatchResult :=
  if errName = "AbortError" then
    { errorToast := none, messages := msgs }
  else
    { errorToast := some "Failed to send message. Please try again."
      messages := msgs.map fun m =>
        if m.id = aiMessageId then
          { m with content := "Sorry, I encountered an error. Please try again."
                   isStreaming := false }
        else m }

/-- C5: cancelling an in-flight agent chat request happens only by
triggering the attached AbortController's fetch abort signal
(`stopGeneration` with a live controller triggers exactly that signal and
raises no error toast; without a controller it does nothing), and when the
request ends with an `AbortError` the catch handler raises no error toast
and leaves the partially streamed message list unchanged. -/
theorem c5_abort_handling (aiMessageId : String) (msgs : List AgentMessage) :
    stopGeneration true =
      { abortSignalTriggered := true, isLoading := some false,
        infoToast := some "Generation stopped", errorToast := none } ∧
    stopGeneration false =
      { abortSignalTriggered := false, isLoading := none,
        infoToast := none, errorToast := none } ∧
    agentCatchHandler "AbortError" aiMessageId msgs =
      { errorToast := none, messages := msgs } := by
  refine ⟨rfl, rfl, ?_⟩
  simp [agentCatchHandler]

/-! ## C7: PDF chat send failure (part_001 `handleSendMessage` catch block,
lines 671-690)

Before the request, `handleSendMessage` appends the user's message and then
the empty streaming placeholder, so on entry to the catch block the message
list is `base ++ [userMsg, placeholder]`.  The catch block shows
`toast.error("Failed to send message. Please try again.")` and replaces the
trailing element (`prev.slice(0, -1)` then push) with the fixed apology
assistant message carrying the placeholder's id. -/

/-- A message of the PDF chat component (fields the catch block touches). -/
structure PdfMessage where
  id : String
  type : String
  content : String
  isStreaming : Bool
deriving DecidableEq

/-- The streaming placeholder pushed by `handleSendMessage` before the
request: empty content, `isStreaming: true`. -/
def streamingPlaceholder (assistantMessageId : String) : PdfMessage :=
  { id := assistantMessageId, type := "ai_agent", content := "",
    isStreaming := true }

/-- The fixed apology assistant message built in the catch block. -/
def apologyMessage (assistantMessageId : String) : PdfMessage :=
  { id := assistantMessageId, type := "ai_agent"
    content := "I apologize, but I'm having trouble processing your request right now. Please try again."
    isStreaming := false }

/-- Embeds the catch block of `handleSendMessage` (part_001): error toast,
then `prev.slice(0, -1)` (drop the trailing message) followed by pushing
the apology message with the assistant placeholder's id. -/
def pdfCatchHandler (assistantMessageId : String) (msgs : List PdfMessage) :
    Option String × List PdfMessage :=
  (some "Failed to send message. Please try again.",
    msgs.dropLast ++ [apologyMessage assistantMessageId])

/-- C7: if the send-message request or its stream fails, an error toast is
shown and the trailing streaming placeholder is replaced by the fixed
apology assistant message, while the just-sent user message (and everything
before it) remains in the conversation. -/
theorem c7_error_replacement (base : List PdfMessage) (userMsg : PdfMessage)
    (assistantMessageId : String) :
    pdfCatchHandler assistantMessageId
        (base ++ [userMsg, streamingPlaceholder assistantMessageId]) =
      (some "Failed to send message. Please try again.",
        base ++ [userMsg, apologyMessage assistantMessageId]) ∧
    userMsg ∈ (pdfCatchHandler assistantMessageId
        (base ++ [userMsg, streamingPlaceholder assistantMessageId])).2 := by
  have hdrop :
      (base ++ [userMsg, streamingPlaceholder assistantMessageId]).dropLast =
        base ++ [userMsg] := by
    have : base ++ [userMsg, streamingPlaceholder assistantMessageId] =
        (base ++ [userMsg]) ++ [streamingPlaceholder assistantMessageId] := by
      simp
    rw [this, List.dropLast_concat]
  constructor
  · simp [pdfCatchHandler, hdrop]
  · simp [pdfCatchHandler, hdrop]

/-! ## C9: the `handleSendMessage` entry guard (part_001 lines 550-552)

`if (!inputMessage.trim() || !sessionId || !user?.id) return;` runs before
any state update or request.  JS falsiness of an optional string is
"missing or empty"; `trim()` strips whitespace from both ends.  We embed the
component state and the pre-request phase of `handleSendMessage`: on guard
failure it returns the state unchanged with no request; otherwise it pushes
the user message, clears the input, sets the typing flag, pushes the
streaming placeholder, and issues the one send-message request. -/

/-- JS `String.prototype.trim`, modelled over the string's characters:
whitespace stripped from both ends. -/
def jsTrim (s : String) : String :=
  ⟨((s.data.dropWhile Char.isWhitespace).reverse.dropWhile Char.isWhitespace).reverse⟩

/-- JS falsiness of an optional string prop: absent or empty. -/
def falsyStr : Option String → Bool
  | none => true
  | some s => s.isEmpty

/-- The component state touched by `handleSendMessage`. -/
structure PdfChatState where
  messages : List PdfMessage
  inputMessage : String
  isTyping : Bool
  streamingMessageId : Option String
deriving DecidableEq

/-- Outcome of the pre-request phase of `handleSendMessage`: the new state
and the number of send-message requests issued. -/
structure SendStartOutcome where
  state : PdfChatState
  requests : Nat
deriving DecidableEq

/-- Embeds the entry of `handleSendMessage` (part_001) up to the `fetch`:
the guard `!inputMessage.trim() || !sessionId || !user?.id` returns with
nothing changed; otherwise the user message (current input, type `user`) and
the empty streaming placeholder are appended, the input is cleared, typing
is set, and the request is issued.  `now` stands for `Date.now()`, used for
the two fresh ids. -/
def handleSendMessageStart (st : PdfChatState) (sessionId userId : Option String)
    (now : Nat) : SendStartOutcome :=
  if (jsTrim st.inputMessage).isEmpty || falsyStr sessionId || falsyStr userId then
    { state := st, requests := 0 }
  else
    { state :=
        { messages := st.messages ++
            [{ id := toString now, type := "user",
               content := st.inputMessage, isStreaming := false },
             streamingPlaceholder (toString (now + 1))]
          inputMessage := ""
          isTyping := true
          streamingMessageId := some (toString (now + 1)) }
      requests := 1 }

/-- C9: if the chat input is empty or whitespace-only, or the session id or
user id is absent (or empty, which JS treats as absent), `handleSendMessage`
returns without issuing any request and leaves the message list and all
other component state unchanged. -/
theorem c9_send_guard_frame (st : PdfChatState) (sessionId userId : Option String)
    (now : Nat)
    (h : (jsTrim st.inputMessage).isEmpty = true ∨ falsyStr sessionId = true ∨
      falsyStr userId = true) :
    handleSendMessageStart st sessionId userId now = { state := st, requests := 0 } := by
  rcases h with h | h | h <;> simp [handleSendMessageStart, h]

/-- C9 witness: the guard theorem applied to a concrete state whose input is
whitespace-only, with both ids present. -/
theorem c9_witness :
    handleSendMessageStart ⟨[], "   ", false, none⟩ (some "sess-1") (some "user-1") 17 =
      { state := ⟨[], "   ", false, none⟩, requests := 0 } :=
  c9_send_guard_frame ⟨[], "   ", false, none⟩ (some "sess-1") (some "user-1") 17
    (Or.inl (by decide))

/-! ## C1: SSE stream assembly (part_001 `handleSendMessage` lines 598-670,
AgentChatSection.tsx `sendMessage` lines 325-395)

Both readers loop over decoded chunks, split each on `"\n"`, and handle
lines starting with `"data: "`: the payload after the prefix is compared to
`"[DONE]"` and otherwise `JSON.parse`d inside a try/catch; a truthy
`content` field is appended to the accumulator.  The one structural
difference: on `"[DONE]"` the PDF reader RETURNS (ending both loops), the
agent reader CONTINUES with the next line.  JS string ops are modelled over
character lists so they compute in the kernel; `JSON.parse` is an arbitrary
oracle `String → Option StreamChunk` (`none` = parse throws). -/

/-- A parsed SSE payload, as consumed by the two readers: optional content
delta, citation list, agent thinking note, and error text. -/
structure StreamChunk where
  content : Option String
  sources : Option (List String)
  thinking : Option String
  error : Option String

/-- JS `String.prototype.startsWith`, over the character list. -/
def jsStartsWith (s pre : String) : Bool := pre.data.isPrefixOf s.data

/-- JS `String.prototype.slice(n)` for non-negative `n`, over the character
list. -/
def jsSlice (s : String) (n : Nat) : String := ⟨s.data.drop n⟩

/-- JS `String.prototype.split("\n")` over a character list: splits at every
newline, keeping empty segments. -/
def splitNlChars : List Char → List (List Char)
  | [] => [[]]
  | c :: rest =>
    match splitNlChars rest with
    | [] => [[]]
    | l :: ls => if c = '\n' then [] :: l :: ls else (c :: l) :: ls

/-- JS `chunk.split("\n")` as a list of line strings. -/
def jsSplitNl (s : String) : List String := (splitNlChars s.data).map List.asString

/-- State of the PDF reader loop: the accumulated `assistantResponse` and
whether the early `return` on `[DONE]` has fired. -/
structure PdfReaderState where
  response : String
  doneSeen : Bool

/-- Embeds the per-line body of the PDF reader (part_001): nothing happens
after the `[DONE]` return; a `data: ` line's payload is compared with
`[DONE]` and otherwise parsed, and a truthy (non-empty) `content` field is
appended to the accumulator.  A parse failure (oracle `none`) is the caught
`JSON.parse` exception and changes nothing. -/
def pdfProcessLine (parse : String → Option StreamChunk)
    (st : PdfReaderState) (line : String) : PdfReaderState :=
  if st.doneSeen then st
  else if jsStartsWith line "data: " then
    let data := jsSlice line 6
    if data = "[DONE]" then { st with doneSeen := true }
    else
      match parse data with
      | some chunk =>
        match chunk.content with
        | some c => if c.isEmpty then st else { st with response := st.response ++ c }
        | none => st
      | none => st
  else st

/-- Embeds the PDF reader's chunk loop: split on newlines, process lines in
order. -/
def pdfAssemble (parse : String → Option StreamChunk) (chunks : List String) :
    String :=
  (chunks.foldl (fun st c => (jsSplitNl c).foldl (pdfProcessLine parse) st)
    { response := "", doneSeen := false }).response

/-- Embeds the per-line body of the agent reader (AgentChatSection): same as
the PDF reader except `[DONE]` only `continue`s, so later lines are still
processed.  (The `sources`/`thinking` branches update other message fields;
the `error` branch throws into the inner catch; neither touches
`fullContent`.) -/
def agentProcessLine (parse : String → Option StreamChunk)
    (resp : String) (line : String) : String :=
  if jsStartsWith line "data: " then
    let data := jsSlice line 6
    if data = "[DONE]" then resp
    else
      match parse data with
      | some chunk =>
        match chunk.content with
        | some c => if c.isEmpty then resp else resp ++ c
        | none => resp
      | none => resp
  else resp

/-- Embeds the agent reader's chunk loop. -/
def agentAssemble (parse : String → Option StreamChunk) (chunks : List String) :
    String :=
  chunks.foldl (fun r c => (jsSplitNl c).foldl (agentProcessLine parse) r) ""

/-- The `data: ` payload of a line, when the line carries one. -/
def dataPayload (line : String) : Option String :=
  if jsStartsWith line "data: " then some (jsSlice line 6) else none

/-- The contribution of one well-formed data payload to the assembled text:
its `content` field, or nothing. -/
def chunkContent (parse : String → Option StreamChunk) (d : String) : String :=
  match parse d with
  | some chunk => chunk.content.getD ""
  | none => ""

/-- Claim-side assembly, following the words of the claim: the
concatenation, in arrival order, of the `content` fields of every
well-formed `data:` JSON payload that PRECEDES the `[DONE]` marker;
unparseable payloads contribute nothing. -/
def sseContentsBeforeDone (parse : String → Option StreamChunk) :
    List String → String
  | [] => ""
  | line :: rest =>
    match dataPayload line with
    | some d =>
      if d = "[DONE]" then ""
      else chunkContent parse d ++ sseContentsBeforeDone parse rest
    | none => sseContentsBeforeDone parse rest

/-- Amended assembly for the agent reader: the concatenation of the
`content` fields of every well-formed data payload in the ENTIRE stream
(`[DONE]` itself contributes nothing but does not stop processing). -/
def sseContentsAll (parse : String → Option StreamChunk) :
    List String → String
  | [] => ""
  | line :: rest =>
    (match dataPayload line with
     | some d => if d = "[DONE]" then "" else chunkContent parse d
     | none => "") ++ sseContentsAll parse rest

/-- The stream's lines, in arrival order: each chunk split on newlines. -/
def streamLines (chunks : List String) : List String :=
  (chunks.map jsSplitNl).flatten

/-- A nested chunk/line foldl equals the foldl over the flattened line
sequence. -/
theorem foldl_chunks_flatten {β : Type} (step : β → String → β)
    (chunks : List String) (b : β) :
    chunks.foldl (fun x c => (jsSplitNl c).foldl step x) b =
      (streamLines chunks).foldl step b := by
  unfold streamLines
  rw [List.foldl_flatten, List.foldl_map]

/-- A JS-falsy (empty) string is the empty string. -/
theorem str_isEmpty_eq (c : String) (h : c.isEmpty = true) : c = "" := by
  cases c with
  | mk d =>
    cases d with
    | nil => rfl
    | cons x xs =>
      simp [String.isEmpty, String.endPos, String.utf8ByteSize] at h
      have hx := Char.utf8Size_pos x
      have hne : String.utf8Len xs + x.utf8Size ≠ 0 := by omega
      exact absurd (congrArg String.Pos.byteIdx h) hne

/-- Once the PDF reader has seen `[DONE]`, no later line changes its
state. -/
theorem pdfProcessLine_done (parse : String → Option StreamChunk)
    (lines : List String) (st : PdfReaderState) (h : st.doneSeen = true) :
    lines.foldl (pdfProcessLine parse) st = st := by
  induction lines with
  | nil => rfl
  | cons l ls ih =>
    have hstep : pdfProcessLine parse st l = st := by
      simp [pdfProcessLine, h]
    simp [List.foldl_cons, hstep, ih]

/-- Master lemma for the PDF reader: before `[DONE]` has been seen, folding
the remaining lines appends exactly the claim-side concatenation of the
contents preceding the marker. -/
theorem pdf_foldl_response (parse : String → Option StreamChunk)
    (lines : List String) (st : PdfReaderState) (h : st.doneSeen = false) :
    (lines.foldl (pdfProcessLine parse) st).response =
      st.response ++ sseContentsBeforeDone parse lines := by
  induction lines generalizing st with
  | nil => simp [sseContentsBeforeDone]
  | cons l ls ih =>
    by_cases hd : jsStartsWith l "data: "
    · by_cases hdone : jsSlice l 6 = "[DONE]"
      · have hstep : pdfProcessLine parse st l = { st with doneSeen := true } := by
          simp [pdfProcessLine, h, hd, hdone]
        rw [List.foldl_cons, hstep, pdfProcessLine_done parse ls _ rfl]
        simp [sseContentsBeforeDone, dataPayload, hd, hdone]
      · rw [List.foldl_cons]
        rcases hp : parse (jsSlice l 6) with _ | chunk
        · have hstep : pdfProcessLine parse st l = st := by
            simp [pdfProcessLine, h, hd, hdone, hp]
          rw [hstep, ih st h]
          simp [sseContentsBeforeDone, dataPayload, hd, hdone, chunkContent, hp]
        · rcases hc : chunk.content with _ | c
          · have hstep : pdfProcessLine parse st l = st := by
              simp [pdfProcessLine, h, hd, hdone, hp, hc]
            rw [hstep, ih st h]
            simp [sseContentsBeforeDone, dataPayload, hd, hdone, chunkContent, hp, hc]
          · by_cases hce : c.isEmpty
            · have hstep : pdfProcessLine parse st l = st := by
                simp [pdfProcessLine, h, hd, hdone, hp, hc, hce]
              have hcemp : c = "" := str_isEmpty_eq c hce
              rw [hstep, ih st h]
              simp [sseContentsBeforeDone, dataPayload, hd, hdone, chunkContent, hp, hc, hcemp]
            · have hstep : pdfProcessLine parse st l =
                  { st with response := st.response ++ c } := by
                simp [pdfProcessLine, h, hd, hdone, hp, hc, hce]
              rw [hstep, ih _ (by simp [h])]
              simp [sseContentsBeforeDone, dataPayload, hd, hdone, chunkContent, hp, hc,
                String.append_assoc]
    · have hstep : pdfProcessLine parse st l = st := by
        simp [pdfProcessLine, h, hd]
      rw [List.foldl_cons, hstep, ih st h]
      simp [sseContentsBeforeDone, dataPayload, hd]

/-- Master lemma for the agent reader: folding the lines appends the
concatenation over the entire line sequence. -/
theorem agent_foldl_response (parse : String → Option StreamChunk)
    (lines : List String) (r : String) :
    lines.foldl (agentProcessLine parse) r = r ++ sseContentsAll parse lines := by
  induction lines generalizing r with
  | nil => simp [sseContentsAll]
  | cons l ls ih =>
    by_cases hd : jsStartsWith l "data: "
    · by_cases hdone : jsSlice l 6 = "[DONE]"
      · have hstep : agentProcessLine parse r l = r := by
          simp [agentProcessLine, hd, hdone]
        rw [List.foldl_cons, hstep, ih]
        simp [sseContentsAll, dataPayload, hd, hdone]
      · rw [List.foldl_cons]
        rcases hp : parse (jsSlice l 6) with _ | chunk
        · have hstep : agentProcessLine parse r l = r := by
            simp [agentProcessLine, hd, hdone, hp]
          rw [hstep, ih]
          simp [sseContentsAll, dataPayload, hd, hdone, chunkContent, hp]
        · rcases hc : chunk.content with _ | c
          · have hstep : agentProcessLine parse r l = r := by
              simp [agentProcessLine, hd, hdone, hp, hc]
            rw [hstep, ih]
            simp [sseContentsAll, dataPayload, hd, hdone, chunkContent, hp, hc]
          · by_cases hce : c.isEmpty
            · have hstep : agentProcessLine parse r l = r := by
                simp [agentProcessLine, hd, hdone, hp, hc, hce]
              have hcemp : c = "" := str_isEmpty_eq c hce
              rw [hstep, ih]
              simp [sseContentsAll, dataPayload, hd, hdone, chunkContent, hp, hc, hcemp]
            · have hstep : agentProcessLine parse r l = r ++ c := by
                simp [agentProcessLine, hd, hdone, hp, hc, hce]
              rw [hstep, ih]
              simp [sseContentsAll, dataPayload, hd, hdone, chunkContent, hp, hc,
                String.append_assoc]
    · have hstep : agentProcessLine parse r l = r := by
        simp [agentProcessLine, hd]
      rw [List.foldl_cons, hstep, ih]
      simp [sseContentsAll, dataPayload, hd]

/-- A concrete parse oracle for the counterexample: exactly the payload
`{"content": "x"}` is well-formed JSON with content `x`; everything else
fails to parse. -/
def parseExample : String → Option StreamChunk := fun s =>
  if s = "\x7b\"content\": \"x\"\x7d" then some ⟨some "x", none, none, none⟩
  else none

/-- A received stream in which the only well-formed content chunk arrives
AFTER the `[DONE]` marker. -/
def doneThenContentStream : List String :=
  ["data: [DONE]\ndata: \x7b\"content\": \"x\"\x7d"]

/-- C1 counterexample: on a stream whose only well-formed content chunk
follows the `[DONE]` marker, the agent chat send-message reader
(AgentChatSection `sendMessage`, which `continue`s on `[DONE]` instead of
returning) assembles `x`, whereas the claim prescribes the concatenation of
the contents PRECEDING `[DONE]`, which is empty — the claim fails on this
concrete input. -/
theorem c1_counterexample :
    agentAssemble parseExample doneThenContentStream = "x" ∧
    sseContentsBeforeDone parseExample (streamLines doneThenContentStream) = "" ∧
    ("x" : String) ≠ "" := by
  refine ⟨by decide, by decide, by decide⟩

/-- C1 (amended): for every parse oracle and every received chunk sequence,
the PDF chat reader (part_001 `handleSendMessage`, which returns at
`[DONE]`) assembles exactly the concatenation, in arrival order, of the
`content` fields of the well-formed `data:` payloads preceding the `[DONE]`
marker, with unparseable payloads skipped; the agent chat reader
(AgentChatSection `sendMessage`, which only `continue`s at `[DONE]`)
assembles the same concatenation taken over the ENTIRE stream, including
any well-formed content chunks after `[DONE]`.  Neither reorders nor drops
parsed content. -/
theorem c1_stream_assembly_amended (parse : String → Option StreamChunk)
    (chunks : List String) :
    pdfAssemble parse chunks = sseContentsBeforeDone parse (streamLines chunks) ∧
    agentAssemble parse chunks = sseContentsAll parse (streamLines chunks) := by
  constructor
  · unfold pdfAssemble
    rw [foldl_chunks_flatten, pdf_foldl_response parse _ _ rfl]
    simp
  · unfold agentAssemble
    rw [foldl_chunks_flatten, agent_foldl_response]
    simp

/-! ## C8: session list assembly (useChatSessions hook, part_004
`fetchSessions` lines 122-130)

`fetchSessions` concatenates the PDF, multi-source, and agent session
arrays (in that order), removes duplicates with
`filter((session, index, self) => index === self.findIndex(s => s.id ===
session.id))` — an element survives iff it is the first with its id — and
sorts by `new Date(created_at).getTime()` descending.  We embed sessions by
the two fields this code inspects (`id` and the epoch value of
`created_at`; the `firstMessage` decoration added earlier changes neither),
the duplicate filter as a structural pass with a seen-id accumulator
(equivalent to the findIndex filter), and `Array.prototype.sort` by its
contract: a sorted permutation (Mathlib's stable `insertionSort` with the
comparator's order). -/

/-- A chat session as inspected by `fetchSessions`: its id and the epoch
milliseconds of its `created_at`. -/
structure SessionRow where
  id : String
  created_at : Nat
deriving DecidableEq

/-- The duplicate filter of `fetchSessions`: keep an element iff no earlier
element has its id (`index === self.findIndex(...)`), carried out with an
accumulator of already-seen ids. -/
def dedupFirstAux (seen : List String) : List SessionRow → List SessionRow
  | [] => []
  | s :: rest =>
    if seen.contains s.id then dedupFirstAux seen rest
    else s :: dedupFirstAux (s.id :: seen) rest

/-- Duplicate removal keeping first occurrences, as in `fetchSessions`. -/
def dedupFirst (l : List SessionRow) : List SessionRow := dedupFirstAux [] l

/-- The sort order of `fetchSessions`' comparator
`(a, b) => Date(b.created_at) - Date(a.created_at)`: newest first. -/
def newestFirst (a b : SessionRow) : Prop := b.created_at ≤ a.created_at

instance : DecidableRel newestFirst := fun a b =>
  inferInstanceAs (Decidable (b.created_at ≤ a.created_at))

instance : IsTotal SessionRow newestFirst :=
  ⟨fun a b => (Nat.le_total b.created_at a.created_at).imp id id⟩

instance : IsTrans SessionRow newestFirst :=
  ⟨fun _ _ _ hab hbc => Nat.le_trans hbc hab⟩

/-- Embeds `fetchSessions`' list assembly: concatenate the PDF,
multi-source, and agent session arrays in that order, drop duplicate ids
keeping first occurrences, and sort newest-first. -/
def fetchSessionsList (pdfS multiS agentS : List SessionRow) : List SessionRow :=
  List.insertionSort newestFirst (dedupFirst (pdfS ++ multiS ++ agentS))

/-- Every survivor of the duplicate filter has an unseen id and is the
first element of the input with its id. -/
theorem dedupFirstAux_find? (l : List SessionRow) :
    ∀ (seen : List String) (s : SessionRow), s ∈ dedupFirstAux seen l →
      seen.contains s.id = false ∧
        l.find? (fun t => t.id == s.id) = some s := by
  induction l with
  | nil => intro seen s hs; simp [dedupFirstAux] at hs
  | cons a as ih =>
    intro seen s hs
    by_cases hc : seen.contains a.id
    · rw [dedupFirstAux, if_pos hc] at hs
      obtain ⟨hseen, hfind⟩ := ih seen s hs
      have hne : (a.id == s.id) = false := by
        cases hbe : a.id == s.id with
        | false => rfl
        | true =>
          have heq : a.id = s.id := by simpa using hbe
          rw [heq, hseen] at hc
          cases hc
      exact ⟨hseen, by simp only [List.find?_cons, hne, hfind]⟩
    · rw [dedupFirstAux, if_neg hc] at hs
      rcases List.mem_cons.mp hs with hs | hs
      · subst hs
        refine ⟨by simpa using hc, ?_⟩
        simp [List.find?_cons]
      · obtain ⟨hseen, hfind⟩ := ih (a.id :: seen) s hs
        rw [List.contains_cons, Bool.or_eq_false_iff] at hseen
        have hne : (a.id == s.id) = false := by
          cases hbe : a.id == s.id with
          | false => rfl
          | true =>
            have heq : a.id = s.id := by simpa using hbe
            have : (s.id == a.id) = true := by simp [heq]
            rw [this] at hseen
            cases hseen.1
        exact ⟨hseen.2, by simp only [List.find?_cons, hne, hfind]⟩

/-- The ids of the duplicate filter's output are pairwise distinct. -/
theorem dedupFirstAux_ids_nodup (l : List SessionRow) :
    ∀ seen : List String, ((dedupFirstAux seen l).map (fun s => s.id)).Nodup := by
  induction l with
  | nil => intro seen; simp [dedupFirstAux]
  | cons a as ih =>
    intro seen
    by_cases hc : seen.contains a.id
    · rw [dedupFirstAux, if_pos hc]; exact ih seen
    · rw [dedupFirstAux, if_neg hc]
      simp only [List.map_cons, List.nodup_cons]
      refine ⟨?_, ih (a.id :: seen)⟩
      intro hmem
      obtain ⟨s, hs, hid⟩ := List.mem_map.mp hmem
      obtain ⟨hseen, _⟩ := dedupFirstAux_find? as (a.id :: seen) s hs
      rw [List.contains_cons, Bool.or_eq_false_iff] at hseen
      have : (s.id == a.id) = true := by simp [hid]
      rw [this] at hseen
      cases hseen.1

/-- C8: for every combination of PDF, multi-source, and agent session
lists, the list produced by `fetchSessions` has pairwise-distinct ids, each
of its elements is the FIRST element with its id in the
PDF-then-multi-then-agent concatenation (so the first occurrence is the one
kept), and it is sorted by `created_at` newest-first (non-increasing). -/
theorem c8_session_list_dedup_sorted (pdfS multiS agentS : List SessionRow) :
    ((fetchSessionsList pdfS multiS agentS).map (fun s => s.id)).Nodup ∧
    (∀ s ∈ fetchSessionsList pdfS multiS agentS,
      (pdfS ++ multiS ++ agentS).find? (fun t => t.id == s.id) = some s) ∧
    (fetchSessionsList pdfS multiS agentS).Sorted newestFirst := by
  refine ⟨?_, ?_, ?_⟩
  · have hperm := List.perm_insertionSort newestFirst
      (dedupFirst (pdfS ++ multiS ++ agentS))
    exact ((hperm.map (fun s => s.id)).nodup_iff).mpr
      (dedupFirstAux_ids_nodup (pdfS ++ multiS ++ agentS) [])
  · intro s hs
    have hmem : s ∈ dedupFirst (pdfS ++ multiS ++ agentS) :=
      (List.mem_insertionSort newestFirst).mp hs
    exact (dedupFirstAux_find? (pdfS ++ multiS ++ agentS) [] s hmem).2
  · exact List.sorted_insertionSort newestFirst _

/-- C8 witness: the theorem applied to concrete lists in which the PDF list
and the multi-source list share the id `a`; the first occurrence (the PDF
one, epoch 5) is kept, ids are distinct, and the output is sorted
newest-first. -/
theorem c8_witness :
    ((fetchSessionsList [⟨"a", 5⟩, ⟨"b", 10⟩] [⟨"a", 7⟩] []).map
        (fun s => s.id)).Nodup ∧
    ((([⟨"a", 5⟩, ⟨"b", 10⟩] : List SessionRow) ++ ([⟨"a", 7⟩] : List SessionRow) ++
        ([] : List SessionRow)).find?
        (fun t => t.id == (⟨"a", 5⟩ : SessionRow).id) = some ⟨"a", 5⟩) ∧
    (fetchSessionsList [⟨"a", 5⟩, ⟨"b", 10⟩] [⟨"a", 7⟩] []).Sorted newestFirst := by
  have h := c8_session_list_dedup_sorted [⟨"a", 5⟩, ⟨"b", 10⟩] [⟨"a", 7⟩] []
  exact ⟨h.1, h.2.1 ⟨"a", 5⟩ (by decide), h.2.2⟩
